import Mathlib

/-!
Verification of the usage-projection engine of the ccusage-monitor repository
(src/core.ts, src/mod.ts, src/datetime.ts, src/types.ts).

Modelling conventions (shallow embedding):
* A JS `Date` stores an integer count of epoch milliseconds; we model it as `ℤ`.
* The custom `DateTime` record of src/datetime.ts is `{ date, zoneName }`; we keep
  both fields.  Arithmetic that JS performs on floats is modelled over `ℚ` with the
  final TimeClip truncation modelled as `Int.floor` (all reachable results here are
  non-negative, where floor and JS truncation agree).
* ISO time strings are abstracted by their parse outcome, since the code consumes
  them only through `fromISO`: `some t` stands for a string parsing to epoch
  millisecond `t`, `none` for a present-but-unparseable string.  `fromISO` throws on
  an unparseable string, modelled as `Except Unit`.
* The host Intl timezone database is modelled by a `ZoneEnv`: a validity predicate
  (construction of `Intl.DateTimeFormat` with an invalid identifier throws, which
  `setZone` catches), a fixed offset in minutes for each zone identifier (DST
  transitions are not modelled; every zone behaves as a fixed offset), and the host
  system zone returned by `Intl.DateTimeFormat().resolvedOptions().timeZone`.
  `Date.prototype.setHours`/`setDate`/`getHours` operate in the host system zone;
  the `getHour`/`getMinute` accessors use an Intl formatter in the carried zone
  (modern engines, hour cycle h23).
-/

namespace Ccusage

/-- Host timezone environment: the Intl database visible to the process. -/
structure ZoneEnv where
  valid : String → Bool
  offset : String → ℤ
  sysZone : String

/-- The DateTime record of src/datetime.ts: epoch milliseconds plus an optional
IANA zone identifier. -/
structure DateTime where
  date : ℤ
  zoneName : Option String
deriving DecidableEq, Repr

/-- Minute offset of the host system zone. -/
def sysOffset (env : ZoneEnv) : ℤ := env.offset env.sysZone

/-- Local-clock milliseconds of an instant under a fixed offset (minutes). -/
def localMs (off : ℤ) (t : ℤ) : ℤ := t + off * 60000

/-- Wall-clock hour in [0, 24) of an instant under a fixed offset. -/
def hourOfDay (off t : ℤ) : ℤ := localMs off t / 3600000 % 24

/-- Wall-clock minute in [0, 60) of an instant under a fixed offset. -/
def minuteOfHour (off t : ℤ) : ℤ := localMs off t / 60000 % 60

/-- src/datetime.ts `valueOf`. -/
def valueOf (dt : DateTime) : ℤ := dt.date

/-- Offset used by the Intl formatters for this DateTime: the carried zone when
present, otherwise the host system zone (`Date.prototype.getHours`). -/
def zoneOffsetOf (env : ZoneEnv) (dt : DateTime) : ℤ :=
  match dt.zoneName with
  | some z => env.offset z
  | none => sysOffset env

/-- src/datetime.ts `getHour`. -/
def getHour (env : ZoneEnv) (dt : DateTime) : ℤ := hourOfDay (zoneOffsetOf env dt) dt.date

/-- src/datetime.ts `getMinute`. -/
def getMinute (env : ZoneEnv) (dt : DateTime) : ℤ := minuteOfHour (zoneOffsetOf env dt) dt.date

/-- src/datetime.ts `setZone`: validate the identifier by constructing an Intl
formatter; on success return a copy carrying the new zone, on the thrown
RangeError return the receiver unchanged (the function never throws). -/
def setZone (env : ZoneEnv) (dt : DateTime) (timezone : String) : DateTime :=
  if env.valid timezone then ⟨dt.date, some timezone⟩ else dt

/-- The duration argument object `{minutes?, hours?, days?}` of src/datetime.ts. -/
structure DurationArg where
  minutes : Option ℚ := none
  hours : Option ℚ := none
  days : Option ℚ := none

/-- Numeric contribution of one optional duration component; JS skips falsy
components (undefined or 0), which adds 0 milliseconds either way. -/
def durComponent (o : Option ℚ) : ℚ :=
  match o with
  | some q => q
  | none => 0

/-- src/datetime.ts `plus`: sequential setMinutes/setHours/setDate mutations on a
copy.  In the fixed-offset model each mutation adds the corresponding
milliseconds; the Date store truncates the final float time value (TimeClip),
modelled as floor. -/
def plus (dt : DateTime) (d : DurationArg) : DateTime :=
  ⟨⌊(dt.date : ℚ) + durComponent d.minutes * 60000 + durComponent d.hours * 3600000
      + durComponent d.days * 86400000⌋, dt.zoneName⟩

/-- src/datetime.ts `minus`: negates each truthy component and delegates to
`plus` (a 0 component is passed as undefined). -/
def negArg (o : Option ℚ) : Option ℚ :=
  match o with
  | some q => if q = 0 then none else some (-q)
  | none => none

/-- src/datetime.ts `minus`. -/
def minus (dt : DateTime) (d : DurationArg) : DateTime :=
  plus dt ⟨negArg d.minutes, negArg d.hours, negArg d.days⟩

/-- src/datetime.ts `diff` in minutes: millisecond difference divided by 60000
(float division, exact in ℚ). -/
def diffMinutes (a b : DateTime) : ℚ := ((a.date - b.date : ℤ) : ℚ) / 60000

/-- src/datetime.ts `startOf day`: `setHours(0,0,0,0)` on a copy — midnight of
the instant in the host system zone. -/
def startOf (env : ZoneEnv) (dt : DateTime) : DateTime :=
  ⟨dt.date - localMs (sysOffset env) dt.date % 86400000, dt.zoneName⟩

/-- src/datetime.ts `set {hour}`: `setHours(hour)` on a copy — replaces the hour
in the host system zone, keeping minute/second/millisecond. -/
def setHourField (env : ZoneEnv) (dt : DateTime) (h : ℤ) : DateTime :=
  ⟨(localMs (sysOffset env) dt.date - localMs (sysOffset env) dt.date % 86400000
      + h * 3600000 + localMs (sysOffset env) dt.date % 3600000)
    - sysOffset env * 60000, dt.zoneName⟩

/-- A time-string field of a block, abstracted by its parse outcome:
`some t` parses to epoch millisecond `t`, `none` is present but unparseable. -/
abbrev TimeStr := Option ℤ

/-- src/datetime.ts `fromISO`, restricted to the epoch value the callers consume:
throws (`Error: Invalid ISO string`) exactly when the string does not parse. -/
def fromISOms : TimeStr → Except Unit ℤ
  | some t => .ok t
  | none => .error ()

/-- src/types.ts `CcusageBlock`.  Optional boolean fields behave as false when
absent (JS truthiness), so they are modelled as plain Bool. -/
structure CcusageBlock where
  startTime : Option TimeStr := none
  actualEndTime : Option TimeStr := none
  totalTokens : Option ℚ := none
  isActive : Bool := false
  isGap : Bool := false
deriving DecidableEq, Repr

/-- Loop body of src/core.ts `calculateHourlyBurnRate` for one block: the tokens
this block adds to the trailing-hour total, or the propagated parse exception.
Each `.ok 0` corresponds to a `continue` in the source. -/
def burnContribution (currentTime oneHourAgo : ℤ) (b : CcusageBlock) : Except Unit ℚ :=
  match b.startTime with
  | none => .ok 0
  | some st =>
    match fromISOms st with
    | .error e => .error e
    | .ok startTime =>
      if b.isGap then .ok 0
      else
        let endRes : Except Unit ℤ :=
          if b.isActive then .ok currentTime
          else
            match b.actualEndTime with
            | some ae => fromISOms ae
            | none => .ok currentTime
        match endRes with
        | .error e => .error e
        | .ok sessionActualEnd =>
          if sessionActualEnd < oneHourAgo then .ok 0
          else
            let sessionStartInHour := if startTime > oneHourAgo then startTime else oneHourAgo
            let sessionEndInHour :=
              if sessionActualEnd < currentTime then sessionActualEnd else currentTime
            if sessionEndInHour ≤ sessionStartInHour then .ok 0
            else
              let totalSessionDuration : ℚ := ((sessionActualEnd - startTime : ℤ) : ℚ) / 60000
              let hourDuration : ℚ := ((sessionEndInHour - sessionStartInHour : ℤ) : ℚ) / 60000
              if totalSessionDuration > 0 ∧ hourDuration > 0 then
                .ok ((b.totalTokens.getD 0) * (hourDuration / totalSessionDuration))
              else .ok 0

/-- The `totalTokens +=` accumulation over the block loop, in source order; the
first thrown parse error aborts the whole computation. -/
def sumContrib (currentTime oneHourAgo : ℤ) : List CcusageBlock → Except Unit ℚ
  | [] => .ok 0
  | b :: rest => do
    let c ← burnContribution currentTime oneHourAgo b
    let s ← sumContrib currentTime oneHourAgo rest
    pure (c + s)

/-- src/core.ts `calculateHourlyBurnRate`.  `oneHourAgo` is
`datetime.minus(currentTime, {hours: 1})`. -/
def calculateHourlyBurnRate (blocks : List CcusageBlock) (currentTime : DateTime) :
    Except Unit ℚ :=
  if blocks.isEmpty then .ok 0
  else
    let oneHourAgo := minus currentTime ⟨none, some 1, none⟩
    match sumContrib (valueOf currentTime) (valueOf oneHourAgo) blocks with
    | .error e => .error e
    | .ok totalTokens => .ok (if totalTokens > 0 then totalTokens / 60 else 0)

/-- Reference contribution of one block, following the words of the spec
(§4.2): overlap of [startTime, effectiveEnd] with [now − 60min, now], tokens
apportioned linearly by duration, non-qualifying blocks contribute 0. -/
def specContribution (now : ℤ) (b : CcusageBlock) : ℚ :=
  match b.startTime with
  | some (some s) =>
    if b.isGap then 0
    else
      let effEnd : ℤ :=
        if b.isActive then now
        else
          match b.actualEndTime with
          | some (some e) => e
          | _ => now
      let windowStart := now - 3600000
      if effEnd < windowStart then 0
      else
        let overlapMinutes : ℚ := ((min effEnd now - max s windowStart : ℤ) : ℚ) / 60000
        let totalMinutes : ℚ := ((effEnd - s : ℤ) : ℚ) / 60000
        if overlapMinutes ≤ 0 ∨ totalMinutes ≤ 0 then 0
        else (b.totalTokens.getD 0) * (overlapMinutes / totalMinutes)
  | _ => 0

/-- Reference burn rate: sum of the per-block window contributions, divided by
the fixed 60-minute window when positive, 0 otherwise. -/
def hourlyBurnRateSpec (blocks : List CcusageBlock) (now : DateTime) : ℚ :=
  let s := (blocks.map (specContribution (valueOf now))).sum
  if 0 < s then s / 60 else 0

/-- Candidate reset schedule of src/core.ts `getNextResetTime`: the singleton
custom hour when provided, else the fixed ascending default. -/
def resetHoursOf (customResetHour : Option ℤ) : List ℤ :=
  match customResetHour with
  | some h => [h]
  | none => [4, 9, 14, 18, 23]

/-- Body of src/core.ts `getNextResetTime` after the timezone projection: scan
the schedule for the next hour, build the reset instant via
startOf-day / set-hour (host-zone Date mutators), and relabel the result with
the original zone identifier when it differs from the target zone. -/
def getNextResetCore (env : ZoneEnv) (currentTime targetTime : DateTime)
    (customResetHour : Option ℤ) : DateTime :=
  let resetHours := resetHoursOf customResetHour
  let currentHour := getHour env targetTime
  let currentMinute := getMinute env targetTime
  let nextResetHour? : Option ℤ :=
    resetHours.find? (fun h =>
      decide (currentHour < h) || (decide (currentHour = h) && decide (currentMinute = 0)))
  let nextReset : DateTime :=
    match nextResetHour? with
    | some h => setHourField env (startOf env targetTime) h
    | none =>
      setHourField env (startOf env (plus targetTime ⟨none, none, some 1⟩)) (resetHours.headD 0)
  match currentTime.zoneName with
  | some cz => if some cz ≠ targetTime.zoneName then setZone env nextReset cz else nextReset
  | none => nextReset

/-- src/core.ts `getNextResetTime`.  The timezone defaults to the host system
zone.  The try/catch around the projection is unreachable: `setZone` catches the
invalid-identifier error internally and returns the instant unchanged, so the
catch branch that would substitute UTC never runs. -/
def getNextResetTime (env : ZoneEnv) (currentTime : DateTime) (customResetHour : Option ℤ)
    (timezoneStr : Option String) : DateTime :=
  let timezone := timezoneStr.getD env.sysZone
  let targetTime := setZone env currentTime timezone
  getNextResetCore env currentTime targetTime customResetHour

/-- Selection rule as the spec words it: first schedule entry h with H < h, or
H = h at the exact minute-0 boundary. -/
def selectResetHour (H M : ℤ) (hours : List ℤ) : Option ℤ :=
  hours.find? (fun h => decide (H < h) || (decide (H = h) && decide (M = 0)))

/-- Midnight (in the host system zone) of the day containing instant t. -/
def hostDayStart (env : ZoneEnv) (t : ℤ) : ℤ :=
  t - localMs (sysOffset env) t % 86400000

/-- Concrete environment: host system zone UTC, only UTC in the database. -/
def utcEnv : ZoneEnv := ⟨fun z => z == "UTC", fun _ => 0, "UTC"⟩

/-- Concrete environment: host system zone Asia/Tokyo (UTC+9). -/
def tokyoEnv : ZoneEnv :=
  ⟨fun z => z == "UTC" || z == "Asia/Tokyo",
   fun z => if z == "Asia/Tokyo" then 540 else 0, "Asia/Tokyo"⟩

/-- Concrete environment: host system zone UTC, with the half-hour-offset zone
Asia/Kolkata (UTC+5:30) in the database. -/
def kolkataEnv : ZoneEnv :=
  ⟨fun z => z == "UTC" || z == "Asia/Kolkata",
   fun z => if z == "Asia/Kolkata" then 330 else 0, "UTC"⟩

/-- Loop of src/core.ts `getTokenLimit` for plan custom_max: running maximum of
`totalTokens || 0` over blocks with gap and active both false. -/
def maxTokensLoop (blocks : List CcusageBlock) : ℚ :=
  blocks.foldl (fun maxTokens b =>
    if (!b.isGap && !b.isActive) then
      (if b.totalTokens.getD 0 > maxTokens then b.totalTokens.getD 0 else maxTokens)
    else maxTokens) 0

/-- src/core.ts `getTokenLimit`.  The plan is kept as a string so that unknown
plan values (which JS resolves through `limits[plan] || 7000`) are covered. -/
def getTokenLimit (plan : String) (blocks : Option (List CcusageBlock)) : ℚ :=
  if plan = "custom_max" ∧ blocks.isSome then
    let maxTokens := maxTokensLoop (blocks.getD [])
    if maxTokens > 0 then maxTokens else 7000
  else if plan = "pro" then 7000
  else if plan = "max5" then 35000
  else if plan = "max20" then 140000
  else if plan = "custom_max" then 7000
  else 7000

/-- Reference maximum, as the spec words it: the maximum tokenCount over blocks
with gap=false and active=false. -/
def maxCompletedTokens (blocks : List CcusageBlock) : ℚ :=
  ((blocks.filter (fun b => !b.isGap && !b.isActive)).map
    (fun b => b.totalTokens.getD 0)).foldl max 0

/-- src/mod.ts lines 99-106: one tick's auto-escalation of the stored token
limit (the only write to it after initialization). -/
def escalateLimit (plan : String) (tokenLimit tokensUsed : ℚ)
    (blocks : List CcusageBlock) : ℚ :=
  if tokensUsed > tokenLimit ∧ plan = "pro" then
    let newLimit := getTokenLimit "custom_max" (some blocks)
    if newLimit > tokenLimit then newLimit else tokenLimit
  else tokenLimit

/-- src/mod.ts line 208: the exceeded-quota notification flag, computed from the
post-escalation token limit. -/
def showExceedNotification (tokensUsed tokenLimit : ℚ) : Bool :=
  decide (tokensUsed > tokenLimit)

/-- src/mod.ts lines 140-150: predicted end instant for one tick. -/
def predictedEndTime (currentTime resetTime : DateTime) (burnRate tokensLeft : ℚ) : DateTime :=
  if burnRate > 0 ∧ tokensLeft > 0 then
    plus currentTime ⟨some (tokensLeft / burnRate), none, none⟩
  else resetTime

/-- The per-tick data that reaches the escalation check in the monitor loop
(ticks with no data or no active block never touch the stored limit). -/
structure TickData where
  tokensUsed : ℚ
  blocks : List CcusageBlock

/-- The stored tokenLimit after a sequence of monitor-loop ticks, starting from
its initialized value. -/
def runLimits (plan : String) (init : ℚ) (ticks : List TickData) : ℚ :=
  ticks.foldl (fun limit td => escalateLimit plan limit td.tokensUsed td.blocks) init

lemma minus_hours_one (dt : DateTime) :
    minus dt ⟨none, some 1, none⟩ = ⟨dt.date - 3600000, dt.zoneName⟩ := by
  unfold minus plus negArg durComponent
  norm_num
  omega

lemma plus_days_one (dt : DateTime) :
    plus dt ⟨none, none, some 1⟩ = ⟨dt.date + 86400000, dt.zoneName⟩ := by
  unfold plus durComponent
  norm_num

lemma qdiv_pos_iff (x : ℤ) : (0 : ℚ) < (x : ℚ) / 60000 ↔ 0 < x := by
  rw [lt_div_iff₀ (by norm_num : (0:ℚ) < 60000)]
  norm_num

lemma qdiv_nonpos_iff (x : ℤ) : (x : ℚ) / 60000 ≤ 0 ↔ x ≤ 0 := by
  rw [div_le_iff₀ (by norm_num : (0:ℚ) < 60000)]
  norm_num

/-- Claim C2 counterexample: a single active non-gap block with 3000 tokens that
started exactly 30 minutes before now.  The code returns 50 tokens per minute
(3000 in-window tokens averaged over the fixed 60-minute window), not the 100
the claim states. -/
theorem c2_counterexample :
    calculateHourlyBurnRate [⟨some (some 1800000), none, some 3000, true, false⟩]
      ⟨3600000, none⟩ ≠ .ok 100 := by
  norm_num [calculateHourlyBurnRate, sumContrib, burnContribution, fromISOms,
    minus_hours_one, valueOf, Bind.bind, Except.bind, Pure.pure, Except.pure]

/-- Claim C2 (amended): for a single active non-gap block with 3000 tokens whose
startTime is exactly 30 minutes before now, hourlyBurnRate is 50 tokens per
minute: the 3000 tokens that fall inside the trailing window are divided by the
fixed 60-minute window length, not by the 30-minute session length. -/
theorem c2_theorem :
    calculateHourlyBurnRate [⟨some (some 1800000), none, some 3000, true, false⟩]
      ⟨3600000, none⟩ = .ok 50 := by
  norm_num [calculateHourlyBurnRate, sumContrib, burnContribution, fromISOms,
    minus_hours_one, valueOf, Bind.bind, Except.bind, Pure.pure, Except.pure]

lemma burnTail_eq (ct s E : ℤ) (tok : ℚ) :
    (if E < ct - 3600000 then (Except.ok 0 : Except Unit ℚ)
     else if (if E < ct then E else ct) ≤ (if s > ct - 3600000 then s else ct - 3600000) then
       .ok 0
     else if ((E - s : ℤ) : ℚ) / 60000 > 0 ∧
         (((if E < ct then E else ct) - (if s > ct - 3600000 then s else ct - 3600000) : ℤ) : ℚ)
           / 60000 > 0 then
       .ok (tok *
         ((((if E < ct then E else ct) - (if s > ct - 3600000 then s else ct - 3600000) : ℤ) : ℚ)
             / 60000 / (((E - s : ℤ) : ℚ) / 60000)))
     else .ok 0)
    = .ok (if E < ct - 3600000 then 0
        else if ((min E ct - max s (ct - 3600000) : ℤ) : ℚ) / 60000 ≤ 0
            ∨ ((E - s : ℤ) : ℚ) / 60000 ≤ 0 then 0
        else tok *
          (((min E ct - max s (ct - 3600000) : ℤ) : ℚ) / 60000 / (((E - s : ℤ) : ℚ) / 60000))) := by
  rcases lt_or_ge E (ct - 3600000) with hlt | hge
  · rw [if_pos hlt, if_pos hlt]
  · rw [if_neg (not_lt.2 hge), if_neg (not_lt.2 hge)]
    have hmax : (if s > ct - 3600000 then s else ct - 3600000) = max s (ct - 3600000) := by
      rcases le_or_lt s (ct - 3600000) with h | h
      · rw [if_neg (not_lt.2 h), max_eq_right h]
      · rw [if_pos h, max_eq_left h.le]
    have hmin : (if E < ct then E else ct) = min E ct := by
      rcases le_or_lt ct E with h | h
      · rw [if_neg (not_lt.2 h), min_eq_right h]
      · rw [if_pos h, min_eq_left h.le]
    rw [hmax, hmin]
    rcases le_or_lt (min E ct) (max s (ct - 3600000)) with hov | hov
    · rw [if_pos hov, if_pos (Or.inl ((qdiv_nonpos_iff _).2 (by omega)))]
    · rw [if_neg (not_le.2 hov)]
      have hhd : (0:ℚ) < ((min E ct - max s (ct - 3600000) : ℤ) : ℚ) / 60000 :=
        (qdiv_pos_iff _).2 (by omega)
      rcases le_or_lt (((E - s : ℤ) : ℚ) / 60000) 0 with htd | htd
      · rw [if_neg (fun hand => absurd hand.1 (not_lt.2 htd)), if_pos (Or.inr htd)]
      · rw [if_pos ⟨htd, hhd⟩, if_neg (by push_neg; exact ⟨hhd, htd⟩)]

lemma burnContribution_eq_spec (ct : ℤ) (b : CcusageBlock)
    (h1 : b.startTime ≠ some none) (h2 : b.actualEndTime ≠ some none) :
    burnContribution ct (ct - 3600000) b = .ok (specContribution ct b) := by
  unfold burnContribution specContribution
  match hst : b.startTime with
  | none => rfl
  | some none => exact absurd hst h1
  | some (some s) =>
    by_cases hg : b.isGap
    · simp [hg, fromISOms]
    · by_cases ha : b.isActive
      · simp only [fromISOms, hg, ha, Bool.false_eq_true, if_false, if_true]
        exact burnTail_eq ct s ct _
      · match hae : b.actualEndTime with
        | none =>
          simp only [fromISOms, hg, ha, hae, Bool.false_eq_true, if_false]
          exact burnTail_eq ct s ct _
        | some none => exact absurd hae h2
        | some (some e) =>
          simp only [fromISOms, hg, ha, hae, Bool.false_eq_true, if_false]
          exact burnTail_eq ct s e _

lemma sumContrib_eq_spec (ct : ℤ) (blocks : List CcusageBlock)
    (hp : ∀ b ∈ blocks, b.startTime ≠ some none ∧ b.actualEndTime ≠ some none) :
    sumContrib ct (ct - 3600000) blocks = .ok ((blocks.map (specContribution ct)).sum) := by
  induction blocks with
  | nil => rfl
  | cons b rest ih =>
    have hb := hp b (List.mem_cons_self b rest)
    simp only [sumContrib, burnContribution_eq_spec ct b hb.1 hb.2,
      ih (fun x hx => hp x (List.mem_cons_of_mem _ hx)), List.map_cons, List.sum_cons,
      Bind.bind, Except.bind, Pure.pure, Except.pure]

/-- Claim C1 counterexample.  Two concrete gaps between the code and the stated
reference: a block with a present-but-unparseable startTime makes the function
throw instead of contributing 0, and a block with a negative token count makes
the code return 0 where the stated "sum of contributions divided by 60" is
negative. -/
theorem c1_counterexample :
    calculateHourlyBurnRate [⟨some none, none, some 100, false, false⟩] ⟨7200000, none⟩
        = .error ()
    ∧ calculateHourlyBurnRate [⟨some (some 1800000), none, some (-600), true, false⟩]
        ⟨3600000, none⟩ = .ok 0
    ∧ (([⟨some (some 1800000), none, some (-600), true, false⟩] : List CcusageBlock).map
        (specContribution 3600000)).sum / 60 ≠ (0 : ℚ) := by
  refine ⟨by norm_num [calculateHourlyBurnRate, sumContrib, burnContribution, fromISOms,
    minus_hours_one, valueOf, Bind.bind, Except.bind, Pure.pure, Except.pure], ?_, ?_⟩
  · norm_num [calculateHourlyBurnRate, sumContrib, burnContribution, fromISOms,
      minus_hours_one, valueOf, Bind.bind, Except.bind, Pure.pure, Except.pure]
  · norm_num [specContribution]

/-- Claim C1 (amended): provided every present startTime and actualEndTime field
parses (otherwise the function throws the fromISO parse error), hourlyBurnRate
equals the time-weighted proration reference: each non-gap block with a parsed
startTime whose effective end (now if active; else actualEndTime if present,
else now) is not earlier than now minus 60 minutes contributes
totalTokens * (overlapMinutes / totalSessionMinutes) for the overlap
[max(startTime, now−60min), min(effectiveEnd, now)], contributing 0 when the
overlap is non-positive or the total session duration is ≤ 0; the result is the
sum of contributions divided by 60 when that sum is positive, and 0 otherwise. -/
theorem c1_theorem (blocks : List CcusageBlock) (currentTime : DateTime)
    (hp : ∀ b ∈ blocks, b.startTime ≠ some none ∧ b.actualEndTime ≠ some none) :
    calculateHourlyBurnRate blocks currentTime = .ok (hourlyBurnRateSpec blocks currentTime) := by
  unfold calculateHourlyBurnRate hourlyBurnRateSpec
  rcases blocks with _ | ⟨b, rest⟩
  · simp
  · rw [minus_hours_one]
    simp only [List.isEmpty_cons, if_false, valueOf, Bool.false_eq_true]
    rw [sumContrib_eq_spec _ _ hp]

/-- Witness for c1_theorem at a concrete input. -/
theorem c1_witness :
    (∀ b ∈ ([⟨some (some 1800000), none, some 3000, true, false⟩] : List CcusageBlock),
      b.startTime ≠ some none ∧ b.actualEndTime ≠ some none)
    ∧ calculateHourlyBurnRate [⟨some (some 1800000), none, some 3000, true, false⟩]
        ⟨3600000, none⟩
      = .ok (hourlyBurnRateSpec [⟨some (some 1800000), none, some 3000, true, false⟩]
        ⟨3600000, none⟩) :=
  ⟨by decide, c1_theorem _ _ (by decide)⟩

/-- Claim C4 counterexample: a gap block whose startTime is present but
unparseable makes hourlyBurnRate throw (fromISO raises before the gap check and
nothing catches it), instead of returning normally with a 0 contribution. -/
theorem c4_counterexample :
    calculateHourlyBurnRate [⟨some none, none, some 500, false, true⟩] ⟨10800000, none⟩
      = .error () := by
  norm_num [calculateHourlyBurnRate, sumContrib, burnContribution, fromISOms,
    minus_hours_one, valueOf, Bind.bind, Except.bind, Pure.pure, Except.pure]

/-- Claim C4 (amended): a block whose startTime is absent contributes exactly 0
and never aborts the computation — dropping it from the block list leaves the
result unchanged.  A present-but-unparseable startTime, however, propagates the
fromISO exception. -/
theorem c4_theorem (b : CcusageBlock) (rest : List CcusageBlock) (ct : DateTime)
    (hb : b.startTime = none) :
    calculateHourlyBurnRate (b :: rest) ct = calculateHourlyBurnRate rest ct := by
  have hcontrib : ∀ x y, burnContribution x y b = .ok 0 := by
    intro x y
    simp [burnContribution, hb]
  have hsum : ∀ x y l, sumContrib x y (b :: l) = sumContrib x y l := by
    intro x y l
    simp only [sumContrib, hcontrib, Bind.bind, Except.bind]
    cases h : sumContrib x y l with
    | error e => rfl
    | ok q => simp [Pure.pure, Except.pure]
  unfold calculateHourlyBurnRate
  rcases rest with _ | ⟨r, rs⟩
  · simp [hsum, sumContrib, hcontrib, Bind.bind, Except.bind, Pure.pure, Except.pure]
  · simp only [List.isEmpty_cons, if_false, Bool.false_eq_true, hsum]

lemma setZone_date (env : ZoneEnv) (dt : DateTime) (tz : String) :
    (setZone env dt tz).date = dt.date := by
  unfold setZone
  split <;> rfl

lemma setHourField_startOf (env : ZoneEnv) (dt : DateTime) (h : ℤ) :
    (setHourField env (startOf env dt) h).date = hostDayStart env dt.date + h * 3600000 := by
  simp only [setHourField, startOf, hostDayStart, localMs]
  omega

/-- Characterization of the instant produced by getNextResetTime for a valid
projection timezone: the schedule entry selected from the projected hour and
minute, placed at that hour of the host-zone day (today, or tomorrow on
fallback). -/
lemma getNextResetTime_date (env : ZoneEnv) (t : DateTime) (ch : Option ℤ) (tz : String)
    (hvalid : env.valid tz = true) :
    (getNextResetTime env t ch (some tz)).date =
      (match selectResetHour (hourOfDay (env.offset tz) t.date)
          (minuteOfHour (env.offset tz) t.date) (resetHoursOf ch) with
       | some h => hostDayStart env t.date + h * 3600000
       | none => hostDayStart env (t.date + 86400000) + (resetHoursOf ch).headD 0 * 3600000) := by
  have hsz : setZone env t tz = ⟨t.date, some tz⟩ := by
    simp [setZone, hvalid]
  simp only [getNextResetTime, getNextResetCore, selectResetHour, Option.getD_some, hsz,
    getHour, getMinute, zoneOffsetOf]
  cases hsel : (resetHoursOf ch).find? (fun h =>
      decide (hourOfDay (env.offset tz) t.date < h)
        || (decide (hourOfDay (env.offset tz) t.date = h)
          && decide (minuteOfHour (env.offset tz) t.date = 0))) with
  | none =>
    simp only [hsel, plus_days_one]
    have hX : (setHourField env (startOf env ⟨t.date + 86400000, some tz⟩)
        ((resetHoursOf ch).headD 0)).date =
        hostDayStart env (t.date + 86400000) + (resetHoursOf ch).headD 0 * 3600000 :=
      setHourField_startOf env ⟨t.date + 86400000, some tz⟩ _
    cases htz : t.zoneName with
    | none => exact hX
    | some cz =>
      dsimp only
      by_cases hcz : (some cz ≠ some tz)
      · rw [if_pos hcz, setZone_date]
        exact hX
      · rw [if_neg hcz]
        exact hX
  | some h =>
    simp only [hsel]
    have hX : (setHourField env (startOf env ⟨t.date, some tz⟩) h).date =
        hostDayStart env t.date + h * 3600000 :=
      setHourField_startOf env ⟨t.date, some tz⟩ h
    cases htz : t.zoneName with
    | none => exact hX
    | some cz =>
      dsimp only
      by_cases hcz : (some cz ≠ some tz)
      · rw [if_pos hcz, setZone_date]
        exact hX
      · rw [if_neg hcz]
        exact hX

lemma hourOfDay_hostDayStart (env : ZoneEnv) (t h : ℤ) (h0 : 0 ≤ h) (h24 : h < 24) :
    hourOfDay (sysOffset env) (hostDayStart env t + h * 3600000) = h := by
  unfold hourOfDay hostDayStart localMs
  omega

lemma minuteOfHour_hostDayStart (env : ZoneEnv) (t h : ℤ) :
    minuteOfHour (sysOffset env) (hostDayStart env t + h * 3600000) = 0 := by
  unfold minuteOfHour hostDayStart localMs
  omega

lemma resetHoursOf_headD_mem (ch : Option ℤ) : (resetHoursOf ch).headD 0 ∈ resetHoursOf ch := by
  cases ch <;> simp [resetHoursOf]

lemma selectResetHour_mem {H M h : ℤ} {hours : List ℤ}
    (hsel : selectResetHour H M hours = some h) : h ∈ hours := by
  unfold selectResetHour at hsel
  exact List.mem_of_find?_eq_some hsel

/-- Claim C3 counterexample: with host system zone Asia/Tokyo, an invalid
timezone identifier does not fall back to UTC — the schedule is evaluated
against the instant's original zone (Tokyo, 12:59, selecting hour 14), while a
genuine UTC projection (03:59 UTC) would select hour 4, so the two results
differ by ten hours. -/
theorem c3_counterexample :
    tokyoEnv.valid "Mars/Phobos" = false
    ∧ (getNextResetTime tokyoEnv ⟨100740000, some "Asia/Tokyo"⟩ none (some "Mars/Phobos")).date
      ≠ (getNextResetTime tokyoEnv ⟨100740000, some "Asia/Tokyo"⟩ none (some "UTC")).date :=
  ⟨by decide, by decide⟩

/-- Claim C3 (amended): an invalid timezone identifier never fails the
computation, but the fallback is the instant's own zone, not UTC: setZone
catches the Intl error internally and returns the instant unchanged (the UTC
catch branch inside getNextResetTime is unreachable), so the schedule is
evaluated exactly as if the instant's own zone identifier had been passed. -/
theorem c3_theorem (env : ZoneEnv) (t : DateTime) (ch : Option ℤ) (tz z : String)
    (hinv : env.valid tz = false) (hz : t.zoneName = some z) (hvz : env.valid z = true) :
    getNextResetTime env t ch (some tz) = getNextResetTime env t ch (some z) := by
  have h1 : setZone env t tz = t := by
    simp [setZone, hinv]
  have h2 : setZone env t z = t := by
    cases t with
    | mk d zn =>
      simp only at hz
      subst hz
      simp [setZone, hvz]
  simp only [getNextResetTime, Option.getD_some, h1, h2]

/-- Witness for c3_theorem at a concrete input. -/
theorem c3_witness :
    (tokyoEnv.valid "Mars/Phobos" = false
      ∧ (⟨100740000, some "Asia/Tokyo"⟩ : DateTime).zoneName = some "Asia/Tokyo"
      ∧ tokyoEnv.valid "Asia/Tokyo" = true)
    ∧ getNextResetTime tokyoEnv ⟨100740000, some "Asia/Tokyo"⟩ none (some "Mars/Phobos")
      = getNextResetTime tokyoEnv ⟨100740000, some "Asia/Tokyo"⟩ none (some "Asia/Tokyo") :=
  ⟨⟨by decide, rfl, by decide⟩,
    c3_theorem tokyoEnv ⟨100740000, some "Asia/Tokyo"⟩ none "Mars/Phobos" "Asia/Tokyo"
      (by decide) rfl (by decide)⟩

/-- Claim C6 counterexample: with host system zone UTC and projection timezone
Asia/Kolkata (UTC+5:30), at Kolkata wall-clock 11:30 the schedule selects entry
14, but the constructed instant sits at 19:30 Kolkata time (14:00 of the UTC
host day), not at minute 0 of the selected hour in the projection zone. -/
theorem c6_counterexample :
    selectResetHour 11 30 (resetHoursOf none) = some 14
    ∧ getHour kolkataEnv (setZone kolkataEnv ⟨108000000, some "Asia/Kolkata"⟩ "Asia/Kolkata") = 11
    ∧ getMinute kolkataEnv (setZone kolkataEnv ⟨108000000, some "Asia/Kolkata"⟩ "Asia/Kolkata")
        = 30
    ∧ hourOfDay (kolkataEnv.offset "Asia/Kolkata")
        (getNextResetTime kolkataEnv ⟨108000000, some "Asia/Kolkata"⟩ none
          (some "Asia/Kolkata")).date ≠ 14
    ∧ minuteOfHour (kolkataEnv.offset "Asia/Kolkata")
        (getNextResetTime kolkataEnv ⟨108000000, some "Asia/Kolkata"⟩ none
          (some "Asia/Kolkata")).date ≠ 0 :=
  ⟨by decide, by decide, by decide, by decide, by decide⟩

/-- Claim C6 (amended): the schedule is scanned in ascending order for the first
entry h with H < h, or H = h at the exact minute-0 boundary, falling back to the
smallest entry on the next calendar day; but the resulting instant lies at
minute 0 of the selected hour as measured in the HOST SYSTEM timezone — the day
start and hour are set with host-zone Date mutators — so it lies at minute 0 of
the selected hour in the projection timezone only when the two offsets agree.
The three concrete cases (03:59 → today 04:00, exactly 04:00 → today 04:00,
23:30 → tomorrow 04:00) hold in an environment whose host zone and projection
zone are both UTC. -/
theorem c6_theorem (env : ZoneEnv) (t : DateTime) (ch : Option ℤ) (tz : String)
    (hvalid : env.valid tz = true)
    (hhrs : ∀ h ∈ resetHoursOf ch, 0 ≤ h ∧ h < 24) :
    ((getNextResetTime env t ch (some tz)).date =
      match selectResetHour (hourOfDay (env.offset tz) t.date)
          (minuteOfHour (env.offset tz) t.date) (resetHoursOf ch) with
      | some h => hostDayStart env t.date + h * 3600000
      | none => hostDayStart env (t.date + 86400000) + (resetHoursOf ch).headD 0 * 3600000)
    ∧ hourOfDay (sysOffset env) (getNextResetTime env t ch (some tz)).date
        = (selectResetHour (hourOfDay (env.offset tz) t.date)
            (minuteOfHour (env.offset tz) t.date) (resetHoursOf ch)).getD
            ((resetHoursOf ch).headD 0)
    ∧ minuteOfHour (sysOffset env) (getNextResetTime env t ch (some tz)).date = 0
    ∧ (getNextResetTime utcEnv ⟨14340000, some "UTC"⟩ none (some "UTC")).date = 14400000
    ∧ (getNextResetTime utcEnv ⟨14400000, some "UTC"⟩ none (some "UTC")).date = 14400000
    ∧ (getNextResetTime utcEnv ⟨84600000, some "UTC"⟩ none (some "UTC")).date = 100800000 := by
  have hchar := getNextResetTime_date env t ch tz hvalid
  refine ⟨hchar, ?_, ?_, ?_, ?_, ?_⟩
  · rw [hchar]
    cases hsel : selectResetHour (hourOfDay (env.offset tz) t.date)
        (minuteOfHour (env.offset tz) t.date) (resetHoursOf ch) with
    | none =>
      have hb := hhrs _ (resetHoursOf_headD_mem ch)
      simpa using hourOfDay_hostDayStart env (t.date + 86400000) _ hb.1 hb.2
    | some h =>
      have hb := hhrs h (selectResetHour_mem hsel)
      simpa using hourOfDay_hostDayStart env t.date h hb.1 hb.2
  · rw [hchar]
    cases hsel : selectResetHour (hourOfDay (env.offset tz) t.date)
        (minuteOfHour (env.offset tz) t.date) (resetHoursOf ch) with
    | none => simpa using minuteOfHour_hostDayStart env (t.date + 86400000) _
    | some h => simpa using minuteOfHour_hostDayStart env t.date h
  · rw [getNextResetTime_date utcEnv ⟨14340000, some "UTC"⟩ none "UTC" (by decide)]
    decide
  · rw [getNextResetTime_date utcEnv ⟨14400000, some "UTC"⟩ none "UTC" (by decide)]
    decide
  · rw [getNextResetTime_date utcEnv ⟨84600000, some "UTC"⟩ none "UTC" (by decide)]
    decide

/-- Witness for c6_theorem at a concrete input. -/
theorem c6_witness :
    (utcEnv.valid "UTC" = true ∧ ∀ h ∈ resetHoursOf none, 0 ≤ h ∧ h < 24)
    ∧ (((getNextResetTime utcEnv ⟨14340000, some "UTC"⟩ none (some "UTC")).date =
        match selectResetHour (hourOfDay (utcEnv.offset "UTC") 14340000)
            (minuteOfHour (utcEnv.offset "UTC") 14340000) (resetHoursOf none) with
        | some h => hostDayStart utcEnv 14340000 + h * 3600000
        | none =>
          hostDayStart utcEnv (14340000 + 86400000) + (resetHoursOf none).headD 0 * 3600000)
      ∧ hourOfDay (sysOffset utcEnv)
          (getNextResetTime utcEnv ⟨14340000, some "UTC"⟩ none (some "UTC")).date
          = (selectResetHour (hourOfDay (utcEnv.offset "UTC") 14340000)
              (minuteOfHour (utcEnv.offset "UTC") 14340000) (resetHoursOf none)).getD
              ((resetHoursOf none).headD 0)
      ∧ minuteOfHour (sysOffset utcEnv)
          (getNextResetTime utcEnv ⟨14340000, some "UTC"⟩ none (some "UTC")).date = 0
      ∧ (getNextResetTime utcEnv ⟨14340000, some "UTC"⟩ none (some "UTC")).date = 14400000
      ∧ (getNextResetTime utcEnv ⟨14400000, some "UTC"⟩ none (some "UTC")).date = 14400000
      ∧ (getNextResetTime utcEnv ⟨84600000, some "UTC"⟩ none (some "UTC")).date = 100800000) :=
  ⟨⟨by decide, by decide⟩, c6_theorem utcEnv ⟨14340000, some "UTC"⟩ none "UTC"
    (by decide) (by decide)⟩

/-- Claim C7 failing input: with host system zone Asia/Tokyo (UTC+9) and
projection timezone UTC, at now = 1970-01-02T03:59Z the code selects schedule
entry 4 but builds it on the Tokyo-local day start, returning 1970-01-01T19:00Z
(Tokyo 04:00) — 8 hours 59 minutes BEFORE now, violating the contract that the
next reset is never in the past. -/
theorem c7_theorem :
    (getNextResetTime tokyoEnv ⟨100740000, some "Asia/Tokyo"⟩ none (some "UTC")).date = 68400000
    ∧ (68400000 : ℤ) < 100740000 := by
  constructor
  · rw [getNextResetTime_date tokyoEnv ⟨100740000, some "Asia/Tokyo"⟩ none "UTC" (by decide)]
    decide
  · decide

/-- Witness for c4_theorem at a concrete input. -/
theorem c4_witness :
    (⟨none, none, some 400, false, false⟩ : CcusageBlock).startTime = none
    ∧ calculateHourlyBurnRate
        [⟨none, none, some 400, false, false⟩, ⟨some (some 1800000), none, some 3000, true, false⟩]
        ⟨3600000, none⟩
      = calculateHourlyBurnRate [⟨some (some 1800000), none, some 3000, true, false⟩]
        ⟨3600000, none⟩ :=
  ⟨rfl, c4_theorem _ _ _ rfl⟩

lemma maxTokensLoop_go (l : List CcusageBlock) :
    ∀ a : ℚ, l.foldl (fun maxTokens b =>
        if (!b.isGap && !b.isActive) then
          (if b.totalTokens.getD 0 > maxTokens then b.totalTokens.getD 0 else maxTokens)
        else maxTokens) a
      = ((l.filter (fun b => !b.isGap && !b.isActive)).map
          (fun b => b.totalTokens.getD 0)).foldl max a := by
  induction l with
  | nil => intro a; rfl
  | cons b xs ih =>
    intro a
    by_cases hb : (!b.isGap && !b.isActive) = true
    · simp only [List.foldl_cons, List.filter_cons, hb, if_true, List.map_cons]
      rw [ih]
      congr 1
      rcases le_or_lt (b.totalTokens.getD 0) a with h | h
      · rw [if_neg (not_lt.2 h), max_eq_left h]
      · rw [if_pos h, max_eq_right h.le]
    · simp only [List.foldl_cons, List.filter_cons, hb, if_false, Bool.false_eq_true]
      rw [ih]

lemma maxTokensLoop_eq (blocks : List CcusageBlock) :
    maxTokensLoop blocks = maxCompletedTokens blocks := by
  unfold maxTokensLoop maxCompletedTokens
  exact maxTokensLoop_go blocks 0

lemma le_foldl_max (l : List ℚ) : ∀ a : ℚ, a ≤ l.foldl max a := by
  induction l with
  | nil => intro a; exact le_refl a
  | cons x xs ih => intro a; exact le_trans (le_max_left a x) (ih (max a x))

lemma maxCompletedTokens_nonneg (blocks : List CcusageBlock) :
    0 ≤ maxCompletedTokens blocks := by
  unfold maxCompletedTokens
  exact le_foldl_max _ 0

lemma foldl_max_nat (l : List ℚ) (hl : ∀ x ∈ l, ∃ n : ℕ, x = (n : ℚ)) :
    ∀ a : ℚ, (∃ n : ℕ, a = (n : ℚ)) → ∃ n : ℕ, l.foldl max a = (n : ℚ) := by
  induction l with
  | nil => intro a ha; exact ha
  | cons x xs ih =>
    intro a ha
    obtain ⟨n, hn⟩ := ha
    obtain ⟨m, hm⟩ := hl x (List.mem_cons_self x xs)
    refine ih (fun y hy => hl y (List.mem_cons_of_mem _ hy)) (max a x) ⟨Max.max n m, ?_⟩
    rw [hn, hm, Nat.cast_max]

lemma getTokenLimit_custom_max (bs : List CcusageBlock) :
    getTokenLimit "custom_max" (some bs)
      = (if 0 < maxCompletedTokens bs then maxCompletedTokens bs else 7000) := by
  unfold getTokenLimit
  rw [if_pos ⟨rfl, rfl⟩]
  simp only [Option.getD_some, maxTokensLoop_eq]

/-- Claim C5: getTokenLimit returns 7000 / 35000 / 140000 for pro / max5 /
max20; for custom_max with blocks it returns the maximum tokenCount over
completed non-gap blocks, falling back to 7000 when no such block exists, the
maximum is 0, or blocks are absent; unknown plan values return 7000; and the
result is non-negative, and an integer whenever the token counts are. -/
theorem c5_theorem (plan : String) (ob : Option (List CcusageBlock))
    (bs : List CcusageBlock) :
    getTokenLimit "pro" ob = 7000
    ∧ getTokenLimit "max5" ob = 35000
    ∧ getTokenLimit "max20" ob = 140000
    ∧ getTokenLimit "custom_max" (some bs)
        = (if 0 < maxCompletedTokens bs then maxCompletedTokens bs else 7000)
    ∧ getTokenLimit "custom_max" none = 7000
    ∧ (plan ≠ "pro" → plan ≠ "max5" → plan ≠ "max20" → plan ≠ "custom_max" →
        getTokenLimit plan ob = 7000)
    ∧ 0 ≤ getTokenLimit plan ob
    ∧ ((∀ b ∈ bs, ∃ n : ℕ, b.totalTokens.getD 0 = (n : ℚ)) →
        ∃ n : ℕ, getTokenLimit "custom_max" (some bs) = (n : ℚ)) := by
  refine ⟨?_, ?_, ?_, getTokenLimit_custom_max bs, ?_, ?_, ?_, ?_⟩
  · unfold getTokenLimit
    rw [if_neg (fun hand => absurd hand.1 (by decide)), if_pos rfl]
  · unfold getTokenLimit
    rw [if_neg (fun hand => absurd hand.1 (by decide)), if_neg (by decide), if_pos rfl]
  · unfold getTokenLimit
    rw [if_neg (fun hand => absurd hand.1 (by decide)), if_neg (by decide),
      if_neg (by decide), if_pos rfl]
  · unfold getTokenLimit
    rw [if_neg (fun hand => by simpa using hand.2), if_neg (by decide),
      if_neg (by decide), if_neg (by decide), if_pos rfl]
  · intro h1 h2 h3 h4
    unfold getTokenLimit
    rw [if_neg (fun hand => h4 hand.1), if_neg h1, if_neg h2, if_neg h3, if_neg h4]
  · unfold getTokenLimit
    have h0 : 0 ≤ maxTokensLoop (ob.getD []) := by
      rw [maxTokensLoop_eq]
      exact maxCompletedTokens_nonneg _
    dsimp only
    split_ifs <;> first | exact h0 | norm_num
  · intro h
    rw [getTokenLimit_custom_max bs]
    split_ifs with hM
    · unfold maxCompletedTokens
      refine foldl_max_nat _ ?_ 0 ⟨0, by norm_num⟩
      intro x hx
      obtain ⟨b, hb, rfl⟩ := List.mem_map.1 hx
      exact h b (List.mem_of_mem_filter hb)
    · exact ⟨7000, by norm_num⟩

/-- Witness for c5_theorem at a concrete input (the spec's own custom_max
example blocks). -/
theorem c5_witness :
    getTokenLimit "team" none = 7000
    ∧ (∃ n : ℕ, getTokenLimit "custom_max"
        (some [⟨none, none, some 50000, false, false⟩, ⟨none, none, some 30000, true, false⟩])
        = (n : ℚ)) := by
  have h := c5_theorem "team" none
    [⟨none, none, some 50000, false, false⟩, ⟨none, none, some 30000, true, false⟩]
  refine ⟨h.2.2.2.2.2.1 (by decide) (by decide) (by decide) (by decide), ?_⟩
  refine h.2.2.2.2.2.2.2 ?_
  intro b hb
  simp only [List.mem_cons, List.not_mem_nil, or_false] at hb
  rcases hb with rfl | rfl
  · exact ⟨50000, by norm_num⟩
  · exact ⟨30000, by norm_num⟩

/-- Claim C8 counterexample: plan pro, limit 7000, tokensUsed 8000, and a
completed block with 9000 tokens.  The quota escalates to 9000, and the
exceeded-quota flag — computed against the post-escalation limit — is false,
not true as the claim states. -/
theorem c8_counterexample :
    escalateLimit "pro" 7000 8000
        [⟨none, none, some 8000, true, false⟩, ⟨none, none, some 9000, false, false⟩]
      = 9000
    ∧ showExceedNotification 8000
        (escalateLimit "pro" 7000 8000
          [⟨none, none, some 8000, true, false⟩, ⟨none, none, some 9000, false, false⟩])
      = false := by
  have h : escalateLimit "pro" 7000 8000
      [⟨none, none, some 8000, true, false⟩, ⟨none, none, some 9000, false, false⟩] = 9000 := by
    norm_num [escalateLimit, getTokenLimit, maxTokensLoop]
  refine ⟨h, ?_⟩
  rw [h]
  norm_num [showExceedNotification]

/-- Claim C8 (amended): with plan pro, stored quota 7000 and an active block at
8000 tokens used, the quota escalates to the maximum completed non-gap token
count exactly when that maximum exceeds 7000, and otherwise stays 7000; the
exceeded-quota flag is computed against the POST-escalation quota, so it is
true iff the resulting quota is below 8000 — always true when no escalation
occurs, but false when escalation raises the quota to 8000 or more. -/
theorem c8_theorem (bs : List CcusageBlock) :
    escalateLimit "pro" 7000 8000 bs
      = (if 7000 < maxCompletedTokens bs then maxCompletedTokens bs else 7000)
    ∧ (showExceedNotification 8000 (escalateLimit "pro" 7000 8000 bs) = true
        ↔ escalateLimit "pro" 7000 8000 bs < 8000) := by
  constructor
  · unfold escalateLimit
    rw [if_pos ⟨by norm_num, rfl⟩]
    dsimp only
    rw [getTokenLimit_custom_max bs]
    set M := maxCompletedTokens bs with hM
    rcases lt_or_ge 7000 M with h | h
    · rw [if_pos h]
      have h0 : (0:ℚ) < M := by linarith
      rw [if_pos h0, if_pos (show M > (7000:ℚ) from h)]
    · rw [if_neg (not_lt.2 h)]
      by_cases h0 : (0:ℚ) < M
      · rw [if_pos h0, if_neg (show ¬(M > (7000:ℚ)) from not_lt.2 h)]
      · rw [if_neg h0, if_neg (show ¬((7000:ℚ) > 7000) by norm_num)]
  · simp [showExceedNotification, gt_iff_lt]

/-- Claim C9: on every monitor tick the predicted end instant is
now + tokensLeft/burnRate minutes when burnRate > 0 and tokensLeft > 0, and
falls back to the reset instant when burnRate = 0 or tokensLeft ≤ 0, for any
value of tokensLeft. -/
theorem c9_theorem (currentTime resetTime : DateTime) (burnRate tokensLeft : ℚ) :
    (0 < burnRate → 0 < tokensLeft →
      predictedEndTime currentTime resetTime burnRate tokensLeft
        = ⟨⌊(currentTime.date : ℚ) + (tokensLeft / burnRate) * 60000⌋, currentTime.zoneName⟩)
    ∧ (burnRate = 0 ∨ tokensLeft ≤ 0 →
      predictedEndTime currentTime resetTime burnRate tokensLeft = resetTime) := by
  constructor
  · intro hbr htl
    unfold predictedEndTime
    rw [if_pos ⟨hbr, htl⟩]
    unfold plus durComponent
    norm_num
  · intro h
    unfold predictedEndTime
    rcases h with h | h
    · rw [if_neg (fun hand => by rw [h] at hand; exact lt_irrefl 0 hand.1)]
    · rw [if_neg (fun hand => absurd hand.2 (not_lt.2 h))]

/-- Witness for c9_theorem at concrete inputs: one burning tick and one fallback
tick. -/
theorem c9_witness :
    predictedEndTime ⟨0, none⟩ ⟨999, none⟩ 2 100
      = ⟨⌊((0 : ℤ) : ℚ) + (100 / 2) * 60000⌋, (none : Option String)⟩
    ∧ predictedEndTime ⟨0, none⟩ ⟨999, none⟩ 0 5 = ⟨999, none⟩ :=
  ⟨(c9_theorem ⟨0, none⟩ ⟨999, none⟩ 2 100).1 (by norm_num) (by norm_num),
   (c9_theorem ⟨0, none⟩ ⟨999, none⟩ 0 5).2 (Or.inl rfl)⟩

/-- Claim C10: across any run of monitor-loop ticks the stored token limit is
monotonically non-decreasing — every single escalation step can only raise it,
any extension of the run can only raise it further, and once it exceeds 7000 it
stays above 7000 for the remainder of the run. -/
theorem c10_theorem (plan : String) (init : ℚ) (ticks extra : List TickData) :
    (∀ (limit : ℚ) (td : TickData),
      limit ≤ escalateLimit plan limit td.tokensUsed td.blocks)
    ∧ runLimits plan init ticks ≤ runLimits plan init (ticks ++ extra)
    ∧ (7000 < runLimits plan init ticks → 7000 < runLimits plan init (ticks ++ extra)) := by
  have hstep : ∀ (limit : ℚ) (td : TickData),
      limit ≤ escalateLimit plan limit td.tokensUsed td.blocks := by
    intro limit td
    unfold escalateLimit
    by_cases h1 : (td.tokensUsed > limit ∧ plan = "pro")
    · rw [if_pos h1]
      dsimp only
      by_cases h2 : getTokenLimit "custom_max" (some td.blocks) > limit
      · rw [if_pos h2]
        exact le_of_lt h2
      · rw [if_neg h2]
    · rw [if_neg h1]
  have hfold : ∀ (l : List TickData) (a : ℚ), a ≤ runLimits plan a l := by
    intro l
    induction l with
    | nil => intro a; exact le_refl a
    | cons td rest ih =>
      intro a
      have h1 : a ≤ escalateLimit plan a td.tokensUsed td.blocks := hstep a td
      have h2 : escalateLimit plan a td.tokensUsed td.blocks
          ≤ runLimits plan (escalateLimit plan a td.tokensUsed td.blocks) rest := ih _
      calc a ≤ escalateLimit plan a td.tokensUsed td.blocks := h1
        _ ≤ runLimits plan (escalateLimit plan a td.tokensUsed td.blocks) rest := h2
        _ = runLimits plan a (td :: rest) := by
          simp [runLimits]
  have happ : runLimits plan init (ticks ++ extra)
      = runLimits plan (runLimits plan init ticks) extra := by
    simp [runLimits, List.foldl_append]
  refine ⟨hstep, ?_, ?_⟩
  · rw [happ]
    exact hfold extra _
  · intro h
    rw [happ]
    exact lt_of_lt_of_le h (hfold extra _)

/-- Witness for c10_theorem: a run whose single tick escalates past 7000, then
an extension that cannot lower it. -/
theorem c10_witness :
    (7000 : ℚ) < runLimits "pro" 7000 [⟨8000, [⟨none, none, some 9000, false, false⟩]⟩]
    ∧ (7000 : ℚ) < runLimits "pro" 7000
        ([⟨8000, [⟨none, none, some 9000, false, false⟩]⟩] ++ [⟨100, []⟩]) := by
  have hEval : (7000 : ℚ) < runLimits "pro" 7000
      [⟨8000, [⟨none, none, some 9000, false, false⟩]⟩] := by
    norm_num [runLimits, escalateLimit, getTokenLimit, maxTokensLoop]
  have h := c10_theorem "pro" 7000 [⟨8000, [⟨none, none, some 9000, false, false⟩]⟩]
    [⟨100, []⟩]
  exact ⟨hEval, h.2.2 hEval⟩

end Ccusage
